import Mathlib

/-!
Verification of the timetable-extractor backend.

This file gives a shallow embedding, in Lean, of the validation, enrichment
and routing core of the `timetable-extractor` repository
(`backend/src/schemas/timetable.js`, `backend/src/services/fileProcessor.js`,
`backend/src/services/pdfProcessor.js`, `backend/src/services/imageProcessor.js`,
`backend/src/services/llmService.js` in its two provider variants,
`backend/src/middleware/upload.js` and
`backend/src/controllers/extractController.js`), and proves or refutes the
frozen behavioural claims about that code.

Modelling conventions:
* JavaScript numbers are modelled as `Int` (time arithmetic) or `ℚ`
  (confidence values and JSON numbers); `NaN`/`undefined` produced by failed
  numeric parses is modelled as `none` of `Option Int` (all comparisons
  against it are false, as for `NaN` in JavaScript).
* Asynchronous library calls (the LLM endpoints, Tesseract OCR, pdf-parse)
  are inputs: each modelled function takes the call's would-be outcome as an
  explicit argument, `Except` for calls that may throw.
* Thrown JavaScript values are modelled with `Except`; plain `Error` objects
  carry `code := none`, structured throws carry their `code` string.
-/

namespace TimetableExtractor

/-- A thrown JavaScript value: either a structured `{ code, message, details }`
object or a plain `Error` (then `code = none`). -/
structure ThrownErr where
  code : Option String := none
  message : String := ""
  details : Option String := none
deriving DecidableEq, Repr

/-- A candidate time block, the shape produced by the LLM and checked by
`timeBlockSchema` in `backend/src/schemas/timetable.js`.  String-typed fields
hold arbitrary strings; the zod refinements on them are checked by
`blockSchemaErrors` below. -/
structure TimeBlock where
  id : Option String := none
  day : String
  start_time : String
  end_time : String
  duration_minutes : Option ℚ := none
  subject : String
  subject_type : Option String := none
  notes : Option String := none
  color_code : Option String := none
  room_location : Option String := none
  confidence : Option ℚ := none
deriving DecidableEq, Repr

/-- Candidate metadata (`metadataSchema`). -/
structure Metadata where
  teacher_name : Option String := none
  class_name : Option String := none
  term : Option String := none
  school_name : Option String := none
  extraction_confidence : Option ℚ := none
deriving DecidableEq, Repr

/-- A candidate extraction object (`timetableExtractionSchema`). -/
structure Extraction where
  metadata : Metadata
  timeblocks : List TimeBlock
deriving DecidableEq, Repr

/-- One zod issue: a path into the object plus a message. -/
structure FieldError where
  path : List String
  message : String
deriving DecidableEq, Repr

/-- Mirror of `zod`'s `safeParse` result as used by `validateTimetable`. -/
structure SchemaResult where
  success : Bool
  errors : List FieldError := []
deriving DecidableEq, Repr

/-- The enum of days accepted by `daySchema`. -/
def dayEnum : List String :=
  ["Monday", "Tuesday", "Wednesday", "Thursday", "Friday", "Saturday", "Sunday"]

/-- The enum accepted by `subjectTypeSchema`. -/
def subjectTypeEnum : List String := ["academic", "break", "administrative", "other"]

/-- The `timeSchema` regex `^\d\x7b1,2\x7d:\d\x7b2\x7d$`: one or two digits,
a colon, two digits. -/
def timePatternOk (s : String) : Bool :=
  match s.toList with
  | [h, c, m1, m2] => h.isDigit && c == ':' && m1.isDigit && m2.isDigit
  | [h1, h2, c, m1, m2] => h1.isDigit && h2.isDigit && c == ':' && m1.isDigit && m2.isDigit
  | _ => false

/-- Hexadecimal digit test for the `color_code` regex. -/
def isHexDigit (c : Char) : Bool :=
  ('0' ≤ c && c ≤ '9') || ('a' ≤ c && c ≤ 'f') || ('A' ≤ c && c ≤ 'F')

/-- The `color_code` regex `^#[0-9A-Fa-f]\x7b6\x7d$`. -/
def colorPatternOk (s : String) : Bool :=
  match s.toList with
  | [p, a, b, c, d, e, f] =>
      p == '#' && isHexDigit a && isHexDigit b && isHexDigit c &&
        isHexDigit d && isHexDigit e && isHexDigit f
  | _ => false

/-- The zod issues raised by `timeBlockSchema` on one block (block index
`idx` enters the issue path, as in zod). -/
def blockSchemaErrors (idx : Nat) (b : TimeBlock) : List FieldError :=
  let loc := fun (f : String) => ["timeblocks", toString idx, f]
  (if dayEnum.contains b.day then [] else
    [{ path := loc "day", message := "Invalid enum value for day" }])
  ++ (if timePatternOk b.start_time then [] else
    [{ path := loc "start_time", message := "Invalid time format. Expected HH:MM" }])
  ++ (if timePatternOk b.end_time then [] else
    [{ path := loc "end_time", message := "Invalid time format. Expected HH:MM" }])
  ++ (match b.duration_minutes with
      | none => []
      | some d =>
        (if d.den == 1 then [] else
          [{ path := loc "duration_minutes", message := "Expected integer, received float" }])
        ++ (if 1 ≤ d then [] else
          [{ path := loc "duration_minutes",
             message := "Number must be greater than or equal to 1" }]))
  ++ (if 1 ≤ b.subject.length then [] else
    [{ path := loc "subject", message := "Subject name is required" }])
  ++ (match b.subject_type with
      | none => []
      | some t => if subjectTypeEnum.contains t then [] else
          [{ path := loc "subject_type", message := "Invalid enum value for subject_type" }])
  ++ (match b.color_code with
      | none => []
      | some cc => if colorPatternOk cc then [] else
          [{ path := loc "color_code", message := "Invalid color code" }])
  ++ (match b.confidence with
      | none => []
      | some q =>
        (if 0 ≤ q then [] else
          [{ path := loc "confidence", message := "Number must be greater than or equal to 0" }])
        ++ (if q ≤ 1 then [] else
          [{ path := loc "confidence", message := "Number must be less than or equal to 1" }]))

/-- Issues of all blocks, numbering from `idx`. -/
def blocksSchemaErrors : Nat → List TimeBlock → List FieldError
  | _, [] => []
  | idx, b :: bs => blockSchemaErrors idx b ++ blocksSchemaErrors (idx + 1) bs

/-- The zod issues raised by `metadataSchema` (its four name fields accept any
optional string; only `extraction_confidence` is refined). -/
def metadataSchemaErrors (m : Metadata) : List FieldError :=
  match m.extraction_confidence with
  | none => []
  | some q =>
    (if 0 ≤ q then [] else
      [{ path := ["metadata", "extraction_confidence"],
         message := "Number must be greater than or equal to 0" }])
    ++ (if q ≤ 1 then [] else
      [{ path := ["metadata", "extraction_confidence"],
         message := "Number must be less than or equal to 1" }])

/-- `validateTimetable` of `backend/src/schemas/timetable.js`:
`timetableExtractionSchema.safeParse(data)`.  Succeeds exactly when no zod
issue is raised; `timeblocks` must contain at least one entry
(`.min(1, 'At least one timeblock is required')`). -/
def validateTimetable (data : Extraction) : SchemaResult :=
  let errors :=
    metadataSchemaErrors data.metadata
    ++ (if data.timeblocks.isEmpty then
          [{ path := ["timeblocks"], message := "At least one timeblock is required" }]
        else [])
    ++ blocksSchemaErrors 0 data.timeblocks
  { success := errors.isEmpty, errors := errors }

/-! ### JavaScript time parsing: `split(':').map(Number)` -/

/-- `String.prototype.split` with a one-character separator, on char lists. -/
def splitCharAux (sep : Char) : List Char → List Char → List (List Char)
  | [], acc => [acc.reverse]
  | c :: cs, acc =>
    if c == sep then acc.reverse :: splitCharAux sep cs []
    else splitCharAux sep cs (c :: acc)

/-- `s.split(sep)` for a single-character separator. -/
def jsSplit (s : String) (sep : Char) : List String :=
  (splitCharAux sep s.toList []).map (fun cs => String.mk cs)

/-- Decimal value of an all-digit character list; `none` models `NaN`. -/
def numberFromChars : List Char → Nat → Option Nat
  | [], acc => some acc
  | c :: cs, acc =>
    if c.isDigit then numberFromChars cs (acc * 10 + (c.toNat - 48)) else none

/-- JavaScript `Number(s)` restricted to the strings that occur here:
`Number('') = 0`, all-digit strings parse in decimal, anything else is `NaN`
(modelled `none`). -/
def jsNumber (s : String) : Option Int :=
  match s.toList with
  | [] => some 0
  | cs => (numberFromChars cs 0).map (fun n => (n : Int))

/-- `const [h, m] = s.split(':').map(Number)`: the hour and minute slots;
a missing slot (`undefined`) behaves like `NaN` and is `none`. -/
def timeNums (s : String) : Option Int × Option Int :=
  let parts := (jsSplit s ':').map jsNumber
  ((parts.get? 0).getD none, (parts.get? 1).getD none)

/-- `hour * 60 + minute`; `NaN` propagates. -/
def minutesOf (s : String) : Option Int :=
  match timeNums s with
  | (some h, some m) => some (h * 60 + m)
  | _ => none

/-- JavaScript `x <= y` where either side may be `NaN`: false then. -/
def optLe (a b : Option Int) : Bool :=
  match a, b with
  | some x, some y => decide (x ≤ y)
  | _, _ => false

/-- JavaScript `x < n` with a possibly-`NaN` left side. -/
def optLtInt (a : Option Int) (n : Int) : Bool :=
  match a with
  | some x => decide (x < n)
  | none => false

/-- JavaScript `x > n` with a possibly-`NaN` left side. -/
def optGtInt (a : Option Int) (n : Int) : Bool :=
  match a with
  | some x => decide (n < x)
  | none => false

/-! ### Business validation and enrichment -/

/-- One entry of the array built by `validateTimeRanges`:
`\x7b block, error \x7d` for hard errors, plus `severity: 'warning'` for the
school-hours warning. -/
structure RangeIssue where
  block : TimeBlock
  error : String
  severity : Option String := none
deriving DecidableEq, Repr

/-- The issues `validateTimeRanges` pushes for a single block: a hard error
when `endMinutes <= startMinutes`, and a warning when
`startHour < 5 || endHour > 23`. -/
def blockIssues (block : TimeBlock) : List RangeIssue :=
  (if optLe (minutesOf block.end_time) (minutesOf block.start_time) then
    [{ block := block, error := "End time must be after start time" }]
  else [])
  ++
  (if optLtInt (timeNums block.start_time).1 5 || optGtInt (timeNums block.end_time).1 23 then
    [{ block := block, error := "Time outside reasonable school hours", severity := some "warning" }]
  else [])

/-- `validateTimeRanges` of `backend/src/schemas/timetable.js`: the issue
array accumulated over the blocks in order. -/
def validateTimeRanges (timeblocks : List TimeBlock) : List RangeIssue :=
  timeblocks.flatMap blockIssues

/-- JavaScript falsiness of `block.duration_minutes`: `undefined` (absent)
and `0` are falsy. -/
def jsFalsy : Option ℚ → Bool
  | none => true
  | some q => q == 0

/-- The per-block body of `enrichTimeBlocks`: when `duration_minutes` is
falsy, recompute it from the time strings.  A `NaN` duration (unparseable
time, unreachable after schema validation) is modelled as `none`. -/
def enrichBlock (block : TimeBlock) : TimeBlock :=
  if jsFalsy block.duration_minutes then
    match minutesOf block.start_time, minutesOf block.end_time with
    | some s, some e => { block with duration_minutes := some ((e - s : Int) : ℚ) }
    | _, _ => { block with duration_minutes := none }
  else block

/-- `enrichTimeBlocks` of `backend/src/schemas/timetable.js`. -/
def enrichTimeBlocks (timeblocks : List TimeBlock) : List TimeBlock :=
  timeblocks.map enrichBlock

/-- The filter `(e) => e.severity === 'warning'` of `validateExtraction`. -/
def timeRangeWarnings (issues : List RangeIssue) : List RangeIssue :=
  issues.filter (fun e => e.severity == some "warning")

/-- The filter `(e) => !e.severity || e.severity === 'error'` of
`validateExtraction`. -/
def timeRangeHardErrors (issues : List RangeIssue) : List RangeIssue :=
  issues.filter (fun e => e.severity == none || e.severity == some "error")

/-- An entry of the mapped error lists produced by `validateExtraction`:
schema errors carry a joined `path`, business errors carry the subject of the
offending block. -/
structure ValidationError where
  path : Option String := none
  block : Option String := none
  message : String
deriving DecidableEq, Repr

/-- A mapped warning `\x7b block: subject, message \x7d`. -/
structure WarnEntry where
  block : String
  message : String
deriving DecidableEq, Repr

/-- The object returned by `validateExtraction` in `fileProcessor.js`.  The
invalid-with-business-errors branch returns the warning entries unmapped
(`rawWarnings`); the valid branch returns them mapped (`warnings`). -/
structure ValidationOutcome where
  isValid : Bool
  errors : List ValidationError := []
  enrichedData : Option Extraction := none
  warnings : Option (List WarnEntry) := none
  rawWarnings : Option (List RangeIssue) := none
deriving DecidableEq, Repr

/-- `validateExtraction` of `backend/src/services/fileProcessor.js`. -/
def validateExtraction (data : Extraction) : ValidationOutcome :=
  let schemaValidation := validateTimetable data
  if !schemaValidation.success then
    { isValid := false,
      errors := schemaValidation.errors.map (fun err =>
        { path := some (String.intercalate "." err.path), message := err.message }) }
  else
    let timeRangeErrors := validateTimeRanges data.timeblocks
    let warnings := timeRangeWarnings timeRangeErrors
    let errors := timeRangeHardErrors timeRangeErrors
    if 0 < errors.length then
      { isValid := false,
        errors := errors.map (fun e =>
          { block := some e.block.subject, message := e.error }),
        rawWarnings := some warnings }
    else
      { isValid := true,
        enrichedData := some
          { metadata := data.metadata, timeblocks := enrichTimeBlocks data.timeblocks },
        warnings := some (warnings.map (fun w =>
          { block := w.block.subject, message := w.error })) }

/-- `validateExtraction` applied to `result.data`, which is `undefined` when
a processor returned no `data` field; `safeParse(undefined)` fails with a
single `Required` issue. -/
def validateExtractionOpt : Option Extraction → ValidationOutcome
  | none => { isValid := false, errors := [{ path := some "", message := "Required" }] }
  | some d => validateExtraction d

/-! ### File routing, processors and the HTTP controller -/

/-- The result object produced by a processor (`processImage`, `processPDF`):
`\x7b success, data, extractionMethod, ... \x7d`, with `rawText` and
`ocrConfidence` present only on the OCR paths. -/
structure ProcResult where
  success : Bool := true
  data : Option Extraction := none
  extractionMethod : String := ""
  rawText : Option String := none
  ocrConfidence : Option ℚ := none
deriving DecidableEq, Repr

/-- JavaScript `s.startsWith(p)`, modelled on character lists. -/
def strStartsWith (s p : String) : Bool :=
  p.toList.isPrefixOf s.toList

/-- A whitespace character for `String.prototype.trim`. -/
def isJsWsChar (c : Char) : Bool :=
  c == ' ' || c == '\t' || c == '\n' || c == '\r'

/-- JavaScript `s.trim()`: strip leading and trailing whitespace. -/
def jsTrim (s : String) : String :=
  String.mk (((s.toList.dropWhile isJsWsChar).reverse.dropWhile isJsWsChar).reverse)

/-- The processor `processFile` dispatches to. -/
inductive Route where
  | image
  | pdf
deriving DecidableEq, Repr

/-- The dispatch chain of `processFile` in `fileProcessor.js`:
`mimetype.startsWith('image/')` picks the Image Processor,
`mimetype === 'application/pdf'` the PDF Processor, anything else throws
`UNSUPPORTED_FILE_TYPE`. -/
def routeFile (mimetype : String) : Except ThrownErr Route :=
  if strStartsWith mimetype "image/" then .ok Route.image
  else if mimetype == "application/pdf" then .ok Route.pdf
  else .error
    { code := some "UNSUPPORTED_FILE_TYPE",
      message := "File type " ++ mimetype ++ " is not supported",
      details := some "Supported types: image/png, image/jpeg, application/pdf" }

/-- The object `processFile` returns: the success shape or the
validation-failure shape (which is returned, not thrown). -/
structure FileOutcome where
  success : Bool
  data : Option Extraction := none
  errorCode : Option String := none
  errorMessage : Option String := none
  errorDetails : List ValidationError := []
  partialData : Option Extraction := none
  validationWarnings : Option (List WarnEntry) := none
deriving DecidableEq, Repr

/-- `processFile` of `backend/src/services/fileProcessor.js`, with the
outcome of the invoked processor passed in (`imageResult` / `pdfResult`
stand for the awaited `processImage` / `processPDF` calls).  A validation
failure is RETURNED as an object with `success: false`; only routing and
processor errors are thrown.  The catch block rethrows coded errors and
wraps plain errors as `PROCESSING_FAILED`. -/
def processFile (imageResult pdfResult : Except ThrownErr ProcResult)
    (mimetype : String) : Except ThrownErr FileOutcome :=
  let routed : Except ThrownErr ProcResult :=
    match routeFile mimetype with
    | .ok Route.image => imageResult
    | .ok Route.pdf => pdfResult
    | .error e => .error e
  match routed with
  | .error e =>
    .error (if e.code.isSome then e else
      { code := some "PROCESSING_FAILED", message := e.message })
  | .ok result =>
    let validation := validateExtractionOpt result.data
    if !validation.isValid then
      .ok { success := false,
            errorCode := some "VALIDATION_FAILED",
            errorMessage := some "Extracted data failed validation",
            errorDetails := validation.errors,
            partialData := result.data }
    else
      .ok { success := true,
            data := validation.enrichedData,
            validationWarnings := validation.warnings }

/-- The multer `fileFilter` of `backend/src/middleware/upload.js`: reject a
MIME type outside `config.allowedFileTypes` with `UNSUPPORTED_FILE_TYPE`. -/
def fileFilterAccepts (allowedFileTypes : List String) (mimetype : String) :
    Except ThrownErr Unit :=
  if !(allowedFileTypes.contains mimetype) then
    .error { code := some "UNSUPPORTED_FILE_TYPE",
             message := "File type " ++ mimetype ++ " is not supported. Allowed types: "
               ++ String.intercalate ", " allowedFileTypes }
  else .ok ()

/-- `config.allowedFileTypes` with `ALLOWED_FILE_TYPES` unset
(`backend/src/config/index.js`). -/
def defaultAllowedFileTypes : List String := ["image/png", "image/jpeg", "application/pdf"]

/-- The upload pipeline: the multer file filter runs before the extract
controller ever calls `processFile`. -/
def uploadThenProcess (allowedFileTypes : List String)
    (imageResult pdfResult : Except ThrownErr ProcResult)
    (mimetype : String) : Except ThrownErr FileOutcome :=
  match fileFilterAccepts allowedFileTypes mimetype with
  | .error e => .error e
  | .ok _ => processFile imageResult pdfResult mimetype

/-- `String.prototype.includes` on char lists: `pat` occurs contiguously. -/
def charsContain (pat : List Char) : List Char → Bool
  | [] => pat.isEmpty
  | c :: cs => pat.isPrefixOf (c :: cs) || charsContain pat cs

/-- The status-code selection of `extractTimetable` in
`extractController.js` (a chain of reassigning `if`s over a 500 default). -/
def statusForCode (code : Option String) : Nat :=
  let statusCode := 500
  let statusCode := if code == some "UNSUPPORTED_FILE_TYPE" then 415 else statusCode
  let statusCode := if code == some "VALIDATION_FAILED" then 422 else statusCode
  let statusCode := if code == some "FILE_TOO_LARGE" then 413 else statusCode
  let statusCode :=
    if charsContain "INVALID".toList (code.getD "").toList then 400 else statusCode
  statusCode

/-- The JSON body and status the controller sends. -/
structure HttpResponse where
  status : Nat
  success : Bool
  data : Option Extraction := none
  errorCode : Option String := none
deriving DecidableEq, Repr

/-- `extractTimetable` of `backend/src/controllers/extractController.js`:
400 when no file was uploaded; otherwise the `processFile` RETURN value is
sent as `\x7b success: true, data: result.data \x7d` with status 200 (its own
`success` field is never consulted), while a THROWN error is mapped through
`statusForCode`. -/
def extractTimetable (fileProvided : Bool)
    (imageResult pdfResult : Except ThrownErr ProcResult)
    (mimetype : String) : HttpResponse :=
  if !fileProvided then
    { status := 400, success := false, errorCode := some "NO_FILE_PROVIDED" }
  else
    match processFile imageResult pdfResult mimetype with
    | .ok result => { status := 200, success := true, data := result.data }
    | .error e =>
      { status := statusForCode e.code, success := false,
        errorCode := some (e.code.getD "INTERNAL_ERROR") }

/-! ### PDF processor -/

/-- The external calls a processor makes, for invocation-trace claims. -/
inductive Action where
  | visionLLM
  | ocr
  | textLLM
deriving DecidableEq, Repr

/-- The coded object `processPDF`'s catch block throws. -/
def pdfFailure (msg : String) : ThrownErr :=
  { code := some "PDF_PROCESSING_FAILED",
    message := msg,
    details := some "Failed to extract text from PDF. The file may be corrupted, password-protected, or a scanned image." }

/-- `processPDF` of `backend/src/services/pdfProcessor.js`, given the text
`pdf-parse` extracted and the would-be outcome of the
`llmService.extractFromText` call.  The second component is the trace of
external calls made.  The guard is
`pdfData.text && pdfData.text.trim().length > 50`; otherwise the function
throws the scanned-image error, which the catch block wraps with code
`PDF_PROCESSING_FAILED`.  An LLM throw is wrapped by the same catch block. -/
def processPDF (pdfText : String) (textLlm : Except String Extraction) :
    Except ThrownErr ProcResult × List Action :=
  if pdfText != "" && decide (50 < (jsTrim pdfText).length) then
    match textLlm with
    | .ok d =>
      (.ok { data := some d, extractionMethod := "pdf-parse + llm-text" }, [Action.textLLM])
    | .error m => (.error (pdfFailure m), [Action.textLLM])
  else
    (.error (pdfFailure "PDF appears to be a scanned image. Please convert to PNG/JPEG and upload again, or the PDF may be empty."), [])

/-! ### Image processor -/

/-- The service configuration fields the image processor reads
(`backend/src/config/index.js`). -/
structure Config where
  enableLLMVision : Bool
  enableOCR : Bool
  ocrConfidenceThreshold : ℚ
  llmConfigured : Bool
deriving DecidableEq, Repr

/-- The raw Tesseract result: recognized text and a 0–100 confidence. -/
structure OcrRaw where
  text : String
  confidence : ℚ
deriving DecidableEq, Repr

/-- Text with confidence on the 0–1 scale. -/
structure OcrScaled where
  text : String
  confidence : ℚ
deriving DecidableEq, Repr

/-- `performOCR` of `imageProcessor.js`: runs Tesseract (its output is the
argument) and rescales `confidence / 100`. -/
def performOCR (raw : OcrRaw) : OcrScaled :=
  { text := raw.text, confidence := raw.confidence / 100 }

/-- The coded object `processImage`'s catch block throws. -/
def imageFailure (msg : String) : ThrownErr :=
  { code := some "IMAGE_PROCESSING_FAILED",
    message := msg,
    details := some "Failed to extract timetable from image. The image may be unclear, corrupted, or in an unsupported format." }

/-- `extractWithOCR` of `imageProcessor.js`: one `performOCR` call, then the
confidence-threshold check, then the minimal-text check
(`!ocrResult.text || ocrResult.text.trim().length < 50`), then one
text-LLM call when the service is configured.  Thrown errors are plain
`Error`s here (the caller's catch block adds the code).  The confidence
percentage interpolated into the first message is elided. -/
def extractWithOCR (cfg : Config) (raw : OcrRaw) (textLlm : Except String Extraction) :
    Except String ProcResult × List Action :=
  let ocrResult := performOCR raw
  if ocrResult.confidence < cfg.ocrConfidenceThreshold then
    (.error "OCR confidence too low. Image quality may be insufficient. Try a clearer image.",
     [Action.ocr])
  else if ocrResult.text == "" ∨ (jsTrim ocrResult.text).length < 50 then
    (.error "Insufficient text extracted from image. Image may be unclear or contain no timetable data.",
     [Action.ocr])
  else if cfg.llmConfigured then
    match textLlm with
    | .ok d =>
      (.ok { data := some d, extractionMethod := "ocr + llm-text",
             ocrConfidence := some ocrResult.confidence },
       [Action.ocr, Action.textLLM])
    | .error m => (.error m, [Action.ocr, Action.textLLM])
  else
    (.ok { success := false, rawText := some ocrResult.text,
           ocrConfidence := some ocrResult.confidence },
     [Action.ocr])

/-- Lift an `extractWithOCR` outcome through `processImage`'s catch block. -/
def wrapImageError : Except String ProcResult → Except ThrownErr ProcResult
  | .ok r => .ok r
  | .error m => .error (imageFailure m)

/-- `processImage` of `backend/src/services/imageProcessor.js`, given the
would-be outcomes of the vision-LLM call and of the OCR engine.  The sharp
preprocessing step is a pixel transformation with no bearing on control flow
and is elided.  Primary path: one vision call; on a vision throw, one
`extractWithOCR` fallback when OCR is enabled, else rethrow; with vision
disabled, straight to `extractWithOCR`; with both disabled, throw.  The
catch block stamps code `IMAGE_PROCESSING_FAILED` on any plain error. -/
def processImage (cfg : Config) (visionResult : Except String Extraction)
    (raw : OcrRaw) (textLlm : Except String Extraction) :
    Except ThrownErr ProcResult × List Action :=
  if cfg.enableLLMVision && cfg.llmConfigured then
    match visionResult with
    | .ok d => (.ok { data := some d, extractionMethod := "claude-vision" }, [Action.visionLLM])
    | .error visionMsg =>
      if cfg.enableOCR then
        let r := extractWithOCR cfg raw textLlm
        (wrapImageError r.1, Action.visionLLM :: r.2)
      else
        (.error (imageFailure visionMsg), [Action.visionLLM])
  else if cfg.enableOCR then
    let r := extractWithOCR cfg raw textLlm
    (wrapImageError r.1, r.2)
  else
    (.error (imageFailure "No extraction method available. Enable LLM Vision or OCR in configuration."), [])

/-! ### JSON values and a model of `JSON.parse` -/

/-- A JSON value; numbers are rationals (JavaScript doubles never matter to
the claims, all involved literals are exact). -/
inductive Json where
  | null
  | bool (b : Bool)
  | num (q : ℚ)
  | str (s : String)
  | arr (elems : List Json)
  | obj (members : List (String × Json))
deriving Repr

/-- Skip JSON whitespace. -/
def skipWs : List Char → List Char
  | [] => []
  | c :: cs =>
    if c == ' ' || c == '\n' || c == '\r' || c == '\t' then skipWs cs else c :: cs

/-- Hexadecimal digit value, for `\u` escapes. -/
def hexVal (c : Char) : Option Nat :=
  if '0' ≤ c && c ≤ '9' then some (c.toNat - 48)
  else if 'a' ≤ c && c ≤ 'f' then some (c.toNat - 87)
  else if 'A' ≤ c && c ≤ 'F' then some (c.toNat - 55)
  else none

/-- Parse the remainder of a JSON string literal (after the opening quote):
content characters until the closing quote, with the standard escapes;
unescaped control characters are rejected. -/
def parseStringChars : Nat → List Char → Option (List Char × List Char)
  | 0, _ => none
  | _, [] => none
  | fuel + 1, c :: cs =>
    if c == '"' then some ([], cs)
    else if c == '\\' then
      match cs with
      | [] => none
      | e :: cs2 =>
        let dec : Option (Char × List Char) :=
          if e == '"' then some ('"', cs2)
          else if e == '\\' then some ('\\', cs2)
          else if e == '/' then some ('/', cs2)
          else if e == 'b' then some (Char.ofNat 8, cs2)
          else if e == 'f' then some (Char.ofNat 12, cs2)
          else if e == 'n' then some ('\n', cs2)
          else if e == 'r' then some ('\r', cs2)
          else if e == 't' then some ('\t', cs2)
          else if e == 'u' then
            match cs2 with
            | h1 :: h2 :: h3 :: h4 :: cs3 =>
              match hexVal h1, hexVal h2, hexVal h3, hexVal h4 with
              | some a, some b, some c3, some d =>
                some (Char.ofNat (((a * 16 + b) * 16 + c3) * 16 + d), cs3)
              | _, _, _, _ => none
            | _ => none
          else none
        match dec with
        | none => none
        | some (ch, rest) =>
          match parseStringChars fuel rest with
          | some (tail, rem) => some (ch :: tail, rem)
          | none => none
    else if c.toNat < 32 then none
    else
      match parseStringChars fuel cs with
      | some (tail, rem) => some (c :: tail, rem)
      | none => none

/-- Split leading decimal digits from a character list. -/
def digitsSpan : List Char → List Char × List Char
  | [] => ([], [])
  | c :: cs =>
    if c.isDigit then
      let (d, r) := digitsSpan cs
      (c :: d, r)
    else ([], c :: cs)

/-- Decimal value of a digit list. -/
def digitsToNat (ds : List Char) : Nat :=
  ds.foldl (fun acc c => acc * 10 + (c.toNat - 48)) 0

/-- Parse a JSON number: optional minus, integer part without leading
zeros, optional fraction, optional exponent. -/
def parseJsonNumber (cs : List Char) : Option (ℚ × List Char) :=
  let (neg, cs1) :=
    match cs with
    | c :: rest => if c == '-' then (true, rest) else (false, cs)
    | [] => (false, cs)
  match digitsSpan cs1 with
  | ([], _) => none
  | (intDs, rest1) =>
    if 1 < intDs.length && intDs.headD '0' == '0' then none
    else
      let ipart : ℚ := (digitsToNat intDs : ℚ)
      let fracStep : Option (ℚ × List Char) :=
        match rest1 with
        | '.' :: r =>
          match digitsSpan r with
          | ([], _) => none
          | (fds, r2) =>
            some (ipart + (digitsToNat fds : ℚ) / ((10 : ℚ) ^ fds.length), r2)
        | _ => some (ipart, rest1)
      match fracStep with
      | none => none
      | some (base, rest2) =>
        let expStep : Option (ℚ × List Char) :=
          match rest2 with
          | e :: r =>
            if e == 'e' || e == 'E' then
              let (eneg, r1) :=
                match r with
                | s :: r2 =>
                  if s == '-' then (true, r2)
                  else if s == '+' then (false, r2)
                  else (false, r)
                | [] => (false, r)
              match digitsSpan r1 with
              | ([], _) => none
              | (eds, r2) =>
                let emag := digitsToNat eds
                some (if eneg then base / ((10 : ℚ) ^ emag) else base * ((10 : ℚ) ^ emag), r2)
            else some (base, rest2)
          | [] => some (base, rest2)
        match expStep with
        | none => none
        | some (v, rest3) => some (if neg then -v else v, rest3)

mutual

/-- Parse one JSON value; fuel bounds the recursion depth. -/
def parseJsonValue : Nat → List Char → Option (Json × List Char)
  | 0, _ => none
  | fuel + 1, cs =>
    match skipWs cs with
    | [] => none
    | 'n' :: 'u' :: 'l' :: 'l' :: rest => some (Json.null, rest)
    | 't' :: 'r' :: 'u' :: 'e' :: rest => some (Json.bool true, rest)
    | 'f' :: 'a' :: 'l' :: 's' :: 'e' :: rest => some (Json.bool false, rest)
    | '"' :: rest =>
      match parseStringChars (rest.length + 1) rest with
      | some (chars, rem) => some (Json.str (String.mk chars), rem)
      | none => none
    | c :: rest =>
      if c == '[' then parseJsonArray fuel (skipWs rest) []
      else if c == '\x7b' then parseJsonObject fuel (skipWs rest) []
      else parseJsonNumber (c :: rest) |>.map (fun p => (Json.num p.1, p.2))

/-- Parse array elements after `[`; `acc` holds elements already read in
reverse. -/
def parseJsonArray : Nat → List Char → List Json → Option (Json × List Char)
  | 0, _, _ => none
  | fuel + 1, cs, acc =>
    match cs with
    | ']' :: rest =>
      if acc.isEmpty then some (Json.arr [], rest) else none
    | _ =>
      match parseJsonValue fuel cs with
      | none => none
      | some (v, rest) =>
        match skipWs rest with
        | ',' :: rest2 => parseJsonArray fuel (skipWs rest2) (v :: acc)
        | ']' :: rest2 => some (Json.arr (v :: acc).reverse, rest2)
        | _ => none

/-- Parse object members after the opening brace; `acc` holds members already
read in reverse. -/
def parseJsonObject : Nat → List Char → List (String × Json) →
    Option (Json × List Char)
  | 0, _, _ => none
  | fuel + 1, cs, acc =>
    match cs with
    | c :: rest =>
      if c == '\x7d' then
        if acc.isEmpty then some (Json.obj [], rest) else none
      else if c == '"' then
        match parseStringChars (rest.length + 1) rest with
        | none => none
        | some (keyChars, rem) =>
          match skipWs rem with
          | ':' :: rem2 =>
            match parseJsonValue fuel rem2 with
            | none => none
            | some (v, rem3) =>
              let acc2 := (String.mk keyChars, v) :: acc
              match skipWs rem3 with
              | ',' :: rem4 => parseJsonObject fuel (skipWs rem4) acc2
              | d :: rem4 =>
                if d == '\x7d' then some (Json.obj acc2.reverse, rem4) else none
              | [] => none
          | _ => none
      else none
    | [] => none

end

/-- `JSON.parse`: one complete JSON text, surrounding whitespace allowed,
nothing after it; `none` models a thrown `SyntaxError`. -/
def jsonParse (s : String) : Option Json :=
  match parseJsonValue (2 * s.length + 4) s.toList with
  | some (v, rest) => if (skipWs rest).isEmpty then some v else none
  | none => none

/-! ### The two LLM clients' response parsing -/

/-- Truncate a character list after its last closing brace. -/
def dropAfterLastClose (cs : List Char) : List Char :=
  (cs.reverse.dropWhile (fun c => !(c == '\x7d'))).reverse

/-- `responseText.match(/\x7b[\s\S]*\x7d/)`, a greedy regex: the match runs
from the first opening brace to the last closing brace of the whole string;
no match when no closing brace follows an opening brace. -/
def braceMatchAux : List Char → Option (List Char)
  | [] => none
  | c :: rest =>
    if c == '\x7b' && rest.contains '\x7d' then
      some ('\x7b' :: dropAfterLastClose rest)
    else braceMatchAux rest

/-- The first (and only) regex match of `/\x7b[\s\S]*\x7d/` on `s`. -/
def braceMatch (s : String) : Option String :=
  (braceMatchAux s.toList).map (fun l => String.mk l)

/-- Response parsing of the OpenAI-client `extractWithVision`
(`llmService.js`, OpenAI variant): `JSON.parse(responseText)` directly. -/
def openaiVisionParse (responseText : String) : Except String Json :=
  match jsonParse responseText with
  | some v => Except.ok v
  | none => Except.error "Unexpected token: JSON.parse failed"

/-- Response parsing of the OpenAI-client `extractFromText`: identical
direct `JSON.parse(responseText)`. -/
def openaiTextParse (responseText : String) : Except String Json :=
  match jsonParse responseText with
  | some v => Except.ok v
  | none => Except.error "Unexpected token: JSON.parse failed"

/-- Response parsing of the Anthropic-client `extractWithVision`: match
`/\x7b[\s\S]*\x7d/`, throw `Failed to extract JSON from LLM response` when
there is no match, then `JSON.parse` the matched substring. -/
def anthropicVisionParse (responseText : String) : Except String Json :=
  match braceMatch responseText with
  | none => Except.error "Failed to extract JSON from LLM response"
  | some jsonStr =>
    match jsonParse jsonStr with
    | some v => Except.ok v
    | none => Except.error "Unexpected token: JSON.parse failed"

/-- Response parsing of the Anthropic-client `extractFromText`: identical
regex extraction then `JSON.parse`. -/
def anthropicTextParse (responseText : String) : Except String Json :=
  match braceMatch responseText with
  | none => Except.error "Failed to extract JSON from LLM response"
  | some jsonStr =>
    match jsonParse jsonStr with
    | some v => Except.ok v
    | none => Except.error "Unexpected token: JSON.parse failed"

/-! ### Supporting lemmas -/

/-- A decimal digit is not a colon. -/
lemma digit_ne_colon {c : Char} (h : c.isDigit = true) : (c == ':') = false := by
  rcases hb : (c == ':') with _ | _
  · rfl
  · have hc := eq_of_beq hb
    subst hc
    exact absurd h (by decide)

/-- Splitting a `d:dd` character pattern at the colon. -/
lemma splitCharAux_pattern4 {a m1 m2 : Char} (ha : (a == ':') = false)
    (h1 : (m1 == ':') = false) (h2 : (m2 == ':') = false) :
    splitCharAux ':' [a, ':', m1, m2] [] = [[a], [m1, m2]] := by
  simp [splitCharAux, ha, h1, h2]

/-- Splitting a `dd:dd` character pattern at the colon. -/
lemma splitCharAux_pattern5 {a b m1 m2 : Char} (ha : (a == ':') = false)
    (hb : (b == ':') = false) (h1 : (m1 == ':') = false) (h2 : (m2 == ':') = false) :
    splitCharAux ':' [a, b, ':', m1, m2] [] = [[a, b], [m1, m2]] := by
  simp [splitCharAux, ha, hb, h1, h2]

/-- `numberFromChars` succeeds on all-digit lists. -/
lemma numberFromChars_digits :
    ∀ (cs : List Char), (∀ c ∈ cs, c.isDigit = true) →
      ∀ acc : Nat, ∃ n, numberFromChars cs acc = some n := by
  intro cs
  induction cs with
  | nil => intro _ acc; exact ⟨acc, rfl⟩
  | cons c cs ih =>
    intro h acc
    have hc : c.isDigit = true := h c (by simp)
    have := ih (fun x hx => h x (by simp [hx])) (acc * 10 + (c.toNat - 48))
    simpa [numberFromChars, hc] using this

/-- `jsNumber` succeeds on nonempty all-digit strings. -/
lemma jsNumber_digits (cs : List Char) (hne : cs ≠ [])
    (h : ∀ c ∈ cs, c.isDigit = true) : ∃ n : Int, jsNumber (String.mk cs) = some n := by
  have htl : (String.mk cs).toList = cs := rfl
  obtain ⟨n, hn⟩ := numberFromChars_digits cs h 0
  cases cs with
  | nil => exact absurd rfl hne
  | cons c cs => exact ⟨n, by simp [jsNumber, htl, hn]⟩

/-- On a schema-valid time string, both destructured slots of
`split(':').map(Number)` are numbers. -/
lemma timeNums_of_pattern {s : String} (h : timePatternOk s = true) :
    ∃ hh mm : Int, timeNums s = (some hh, some mm) := by
  unfold timePatternOk at h
  rcases hl : s.toList with _ | ⟨a, _ | ⟨b, _ | ⟨c, _ | ⟨d, _ | ⟨e, rest⟩⟩⟩⟩⟩
  all_goals rw [hl] at h
  case nil => simp at h
  case cons.nil => simp at h
  case cons.cons.nil => simp at h
  case cons.cons.cons.nil => simp at h
  case cons.cons.cons.cons.nil =>
    -- the `d:dd` shape: a digit, b = ':', c d digits
    simp only [Bool.and_eq_true, beq_iff_eq] at h
    obtain ⟨⟨⟨ha, hb⟩, hc⟩, hd⟩ := h
    subst hb
    obtain ⟨n1, hn1⟩ := jsNumber_digits [a] (by simp)
      (by
        intro x hx
        simp only [List.mem_cons, List.mem_singleton, List.not_mem_nil, or_false] at hx
        rcases hx with rfl | rfl
        all_goals assumption)
    obtain ⟨n2, hn2⟩ := jsNumber_digits [c, d] (by simp)
      (by
        intro x hx
        simp only [List.mem_cons, List.mem_singleton, List.not_mem_nil, or_false] at hx
        rcases hx with rfl | rfl
        all_goals assumption)
    refine ⟨n1, n2, ?_⟩
    unfold timeNums jsSplit
    rw [hl, splitCharAux_pattern4 (digit_ne_colon ha) (digit_ne_colon hc) (digit_ne_colon hd)]
    simp [hn1, hn2]
  case cons.cons.cons.cons.cons =>
    cases rest with
    | cons f rest2 => simp at h
    | nil =>
      -- the `dd:dd` shape: a b digits, c = ':', d e digits
      simp only [Bool.and_eq_true, beq_iff_eq] at h
      obtain ⟨⟨⟨⟨ha, hb⟩, hc⟩, hd⟩, he⟩ := h
      subst hc
      obtain ⟨n1, hn1⟩ := jsNumber_digits [a, b] (by simp)
        (by
        intro x hx
        simp only [List.mem_cons, List.mem_singleton, List.not_mem_nil, or_false] at hx
        rcases hx with rfl | rfl
        all_goals assumption)
      obtain ⟨n2, hn2⟩ := jsNumber_digits [d, e] (by simp)
        (by
        intro x hx
        simp only [List.mem_cons, List.mem_singleton, List.not_mem_nil, or_false] at hx
        rcases hx with rfl | rfl
        all_goals assumption)
      refine ⟨n1, n2, ?_⟩
      unfold timeNums jsSplit
      rw [hl, splitCharAux_pattern5 (digit_ne_colon ha) (digit_ne_colon hb)
        (digit_ne_colon hd) (digit_ne_colon he)]
      simp [hn1, hn2]

/-- On a schema-valid time string the minutes-since-midnight value exists. -/
lemma minutesOf_of_pattern {s : String} (h : timePatternOk s = true) :
    ∃ v : Int, minutesOf s = some v := by
  obtain ⟨hh, mm, hnums⟩ := timeNums_of_pattern h
  exact ⟨hh * 60 + mm, by simp [minutesOf, hnums]⟩

/-- An empty issue list for one block forces the checks the later stages
rely on: valid time patterns and, when present, an integer duration ≥ 1. -/
lemma blockSchemaErrors_facts {i : Nat} {b : TimeBlock}
    (h : blockSchemaErrors i b = []) :
    timePatternOk b.start_time = true ∧ timePatternOk b.end_time = true ∧
      ∀ d : ℚ, b.duration_minutes = some d → d.den = 1 ∧ 1 ≤ d := by
  simp only [blockSchemaErrors] at h
  obtain ⟨h, h8⟩ := List.append_eq_nil.mp h
  obtain ⟨h, h7⟩ := List.append_eq_nil.mp h
  obtain ⟨h, h6⟩ := List.append_eq_nil.mp h
  obtain ⟨h, h5⟩ := List.append_eq_nil.mp h
  obtain ⟨h, h4⟩ := List.append_eq_nil.mp h
  obtain ⟨h, h3⟩ := List.append_eq_nil.mp h
  obtain ⟨h1, h2⟩ := List.append_eq_nil.mp h
  refine ⟨?_, ?_, ?_⟩
  · by_cases hp : timePatternOk b.start_time = true
    · exact hp
    · simp [hp] at h2
  · by_cases hp : timePatternOk b.end_time = true
    · exact hp
    · simp [hp] at h3
  · intro d hd
    rw [hd] at h4
    obtain ⟨h41, h42⟩ := List.append_eq_nil.mp h4
    constructor
    · by_cases hden : d.den = 1
      · exact hden
      · simp [hden] at h41
    · by_cases hge : 1 ≤ d
      · exact hge
      · simp [hge] at h42

/-- Lift emptiness of the accumulated block issues to each member block. -/
lemma blocksSchemaErrors_mem {bs : List TimeBlock} :
    ∀ {i : Nat}, blocksSchemaErrors i bs = [] →
      ∀ b ∈ bs, ∃ j, blockSchemaErrors j b = [] := by
  induction bs with
  | nil => intro i _ b hb; cases hb
  | cons x xs ih =>
    intro i h b hb
    unfold blocksSchemaErrors at h
    rw [List.append_eq_nil] at h
    obtain ⟨h1, h2⟩ := h
    rcases List.mem_cons.mp hb with rfl | hb
    · exact ⟨i, h1⟩
    · exact ih h2 b hb

/-- What `safeParse` success means for every block. -/
lemma validateTimetable_success_facts {data : Extraction}
    (h : (validateTimetable data).success = true) :
    ∀ b ∈ data.timeblocks,
      timePatternOk b.start_time = true ∧ timePatternOk b.end_time = true ∧
        ∀ d : ℚ, b.duration_minutes = some d → d.den = 1 ∧ 1 ≤ d := by
  intro b hb
  simp only [validateTimetable, List.isEmpty_iff] at h
  obtain ⟨h, hbs⟩ := List.append_eq_nil.mp h
  obtain ⟨hm, hl⟩ := List.append_eq_nil.mp h
  obtain ⟨j, hj⟩ := blocksSchemaErrors_mem hbs b hb
  exact blockSchemaErrors_facts hj

/-- An empty `timeblocks` array always fails `safeParse`. -/
lemma validateTimetable_empty {data : Extraction} (h : data.timeblocks = []) :
    (validateTimetable data).success = false := by
  simp [validateTimetable, h, blocksSchemaErrors]

/-- A schema failure makes `validateExtraction` invalid with no enriched
data. -/
lemma validateExtraction_schema_fail {data : Extraction}
    (h : (validateTimetable data).success = false) :
    (validateExtraction data).isValid = false ∧
      (validateExtraction data).enrichedData = none := by
  unfold validateExtraction
  simp [h]

/-- A nonempty hard-error list makes `validateExtraction` invalid. -/
lemma validateExtraction_hard_fail {data : Extraction}
    (hs : (validateTimetable data).success = true)
    (hh : timeRangeHardErrors (validateTimeRanges data.timeblocks) ≠ []) :
    (validateExtraction data).isValid = false := by
  unfold validateExtraction
  have hlen : 0 < (timeRangeHardErrors (validateTimeRanges data.timeblocks)).length :=
    List.length_pos.mpr hh
  simp [hs, hlen]

/-- With schema success and no hard errors, `validateExtraction` returns the
valid branch verbatim. -/
lemma validateExtraction_valid_eq {data : Extraction}
    (hs : (validateTimetable data).success = true)
    (hh : timeRangeHardErrors (validateTimeRanges data.timeblocks) = []) :
    validateExtraction data =
      { isValid := true,
        enrichedData := some
          { metadata := data.metadata, timeblocks := enrichTimeBlocks data.timeblocks },
        warnings := some ((timeRangeWarnings (validateTimeRanges data.timeblocks)).map
          (fun w => { block := w.block.subject, message := w.error })) } := by
  unfold validateExtraction
  simp [hs, hh]

/-- Validity forces schema success and an empty hard-error list. -/
lemma validateExtraction_isValid_elim {data : Extraction}
    (h : (validateExtraction data).isValid = true) :
    (validateTimetable data).success = true ∧
      timeRangeHardErrors (validateTimeRanges data.timeblocks) = [] := by
  by_cases hs : (validateTimetable data).success = true
  · by_cases hh : timeRangeHardErrors (validateTimeRanges data.timeblocks) = []
    · exact ⟨hs, hh⟩
    · rw [validateExtraction_hard_fail hs hh] at h
      cases h
  · have hs2 : (validateTimetable data).success = false := by
      rcases hb : (validateTimetable data).success with _ | _
      · rfl
      · exact absurd hb hs
    rw [(validateExtraction_schema_fail hs2).1] at h
    cases h

/-- The hard error a late-ending block contributes is in the issue list. -/
lemma errIssue_mem {bs : List TimeBlock} {b : TimeBlock} (hb : b ∈ bs)
    (hle : optLe (minutesOf b.end_time) (minutesOf b.start_time) = true) :
    ({ block := b, error := "End time must be after start time", severity := none } :
      RangeIssue) ∈ validateTimeRanges bs := by
  unfold validateTimeRanges
  rw [List.mem_flatMap]
  exact ⟨b, hb, by simp [blockIssues, hle]⟩

/-- The warning a school-hours block contributes is in the issue list. -/
lemma warnIssue_mem {bs : List TimeBlock} {b : TimeBlock} (hb : b ∈ bs)
    (hw : (optLtInt (timeNums b.start_time).1 5 ||
           optGtInt (timeNums b.end_time).1 23) = true) :
    ({ block := b, error := "Time outside reasonable school hours",
       severity := some "warning" } : RangeIssue) ∈ validateTimeRanges bs := by
  unfold validateTimeRanges
  rw [List.mem_flatMap]
  exact ⟨b, hb, by simp [blockIssues, hw]⟩

/-- The hard-error list is empty exactly when no block has
`endMinutes <= startMinutes`. -/
lemma hardErrors_nil_iff (bs : List TimeBlock) :
    timeRangeHardErrors (validateTimeRanges bs) = [] ↔
      ∀ b ∈ bs, optLe (minutesOf b.end_time) (minutesOf b.start_time) = false := by
  unfold timeRangeHardErrors
  rw [List.filter_eq_nil_iff]
  constructor
  · intro h b hb
    rcases hle : optLe (minutesOf b.end_time) (minutesOf b.start_time) with _ | _
    · rfl
    · exfalso
      have hmem := errIssue_mem hb hle
      have := h _ hmem
      simp at this
  · intro h e he
    unfold validateTimeRanges at he
    rw [List.mem_flatMap] at he
    obtain ⟨b, hb, hbe⟩ := he
    unfold blockIssues at hbe
    rw [h b hb] at hbe
    simp only [if_false, Bool.false_eq_true, List.nil_append] at hbe
    by_cases hw : (optLtInt (timeNums b.start_time).1 5 ||
        optGtInt (timeNums b.end_time).1 23) = true
    · rw [hw] at hbe
      simp only [if_true] at hbe
      rw [List.mem_singleton] at hbe
      subst hbe
      simp
    · simp only [Bool.not_eq_true] at hw
      rw [hw] at hbe
      simp at hbe

/-- A `true` success flag cannot coexist with its negation; helper for flag
case splits. -/
lemma success_eq_false_of_not_true {data : Extraction}
    (hs : ¬(validateTimetable data).success = true) :
    (validateTimetable data).success = false := by
  rcases hb : (validateTimetable data).success with _ | _
  · rfl
  · exact absurd hb hs

/-! ### Claim theorems -/

/-- C4: a time block whose minutes-since-midnight end value is at most its
start value always contributes a severity-free (hard) error to
`validateTimeRanges`, and `validateExtraction` on any data containing such a
block is invalid — the block never passes silently. -/
theorem c4_end_le_start_is_hard_error (data : Extraction) (b : TimeBlock)
    (hmem : b ∈ data.timeblocks)
    (hle : optLe (minutesOf b.end_time) (minutesOf b.start_time) = true) :
    (∃ e ∈ validateTimeRanges data.timeblocks,
        e.block = b ∧ e.severity = none ∧ e.error = "End time must be after start time") ∧
      (validateExtraction data).isValid = false := by
  constructor
  · exact ⟨_, errIssue_mem hmem hle, rfl, rfl, rfl⟩
  · by_cases hs : (validateTimetable data).success = true
    · apply validateExtraction_hard_fail hs
      intro hnil
      have hfalse := (hardErrors_nil_iff data.timeblocks).mp hnil b hmem
      rw [hle] at hfalse
      cases hfalse
    · exact (validateExtraction_schema_fail (success_eq_false_of_not_true hs)).1

/-- Data for the C4 witness: a Monday block running from 10:00 back to
09:00. -/
def c4Data : Extraction :=
  { metadata := {},
    timeblocks := [{ day := "Monday", start_time := "10:00", end_time := "09:00",
                     subject := "Maths" }] }

/-- The block of `c4Data`. -/
def c4Block : TimeBlock :=
  { day := "Monday", start_time := "10:00", end_time := "09:00", subject := "Maths" }

/-- Witness for C4 at a concrete reversed-time block. -/
theorem c4_end_le_start_is_hard_error_witness :
    (∃ e ∈ validateTimeRanges c4Data.timeblocks,
        e.block = c4Block ∧ e.severity = none ∧ e.error = "End time must be after start time") ∧
      (validateExtraction c4Data).isValid = false :=
  c4_end_le_start_is_hard_error c4Data c4Block (by decide) (by decide)

/-- C9: an empty `timeblocks` list always fails the structural schema check,
so `validateExtraction` is invalid and never produces a normalized
(enriched) result. -/
theorem c9_empty_timeblocks_never_normalized (data : Extraction)
    (h : data.timeblocks = []) :
    (validateTimetable data).success = false ∧
      (validateExtraction data).isValid = false ∧
      (validateExtraction data).enrichedData = none := by
  have hs := validateTimetable_empty h
  exact ⟨hs, (validateExtraction_schema_fail hs).1, (validateExtraction_schema_fail hs).2⟩

/-- Witness for C9 at the concrete empty extraction. -/
theorem c9_empty_timeblocks_never_normalized_witness :
    (validateTimetable { metadata := {}, timeblocks := [] }).success = false ∧
      (validateExtraction { metadata := {}, timeblocks := [] }).isValid = false ∧
      (validateExtraction { metadata := {}, timeblocks := [] }).enrichedData = none :=
  c9_empty_timeblocks_never_normalized { metadata := {}, timeblocks := [] } rfl

/-- C5: on schema-valid data with no hard time-range errors, a block whose
start hour is below 5 or whose end hour is above 23 yields a warning, the
validation result stays valid, and `processFile` returns a success object
carrying the warnings in its metadata. -/
theorem c5_school_hours_warning_kept (data : Extraction) (b : TimeBlock)
    (pdfResult : Except ThrownErr ProcResult)
    (hs : (validateTimetable data).success = true)
    (hnoerr : ∀ b2 ∈ data.timeblocks,
      optLe (minutesOf b2.end_time) (minutesOf b2.start_time) = false)
    (hmem : b ∈ data.timeblocks)
    (hw : (optLtInt (timeNums b.start_time).1 5 ||
           optGtInt (timeNums b.end_time).1 23) = true) :
    (validateExtraction data).isValid = true ∧
    (∃ ws, (validateExtraction data).warnings = some ws ∧
       ({ block := b.subject, message := "Time outside reasonable school hours" } :
         WarnEntry) ∈ ws) ∧
    (∃ r, processFile (Except.ok { data := some data }) pdfResult "image/png" =
        Except.ok r ∧ r.success = true ∧
        r.validationWarnings = (validateExtraction data).warnings) := by
  have hh : timeRangeHardErrors (validateTimeRanges data.timeblocks) = [] :=
    (hardErrors_nil_iff _).mpr hnoerr
  have hveq := validateExtraction_valid_eq hs hh
  refine ⟨by rw [hveq], ⟨_, by rw [hveq], ?_⟩, ?_⟩
  · rw [List.mem_map]
    refine ⟨{ block := b, error := "Time outside reasonable school hours",
              severity := some "warning" }, ?_, rfl⟩
    unfold timeRangeWarnings
    rw [List.mem_filter]
    exact ⟨warnIssue_mem hmem hw, by simp⟩
  · have hpf : processFile (Except.ok { data := some data }) pdfResult "image/png" =
        Except.ok { success := true, data := (validateExtraction data).enrichedData,
                    validationWarnings := (validateExtraction data).warnings } := by
      have hroute : routeFile "image/png" = Except.ok Route.image := rfl
      have hvalid : (validateExtraction data).isValid = true := by rw [hveq]
      simp [processFile, hroute, validateExtractionOpt, hvalid]
    exact ⟨_, hpf, rfl, rfl⟩

/-- Data for the C5 witness: one early-morning block from 04:30 to 10:00. -/
def c5Data : Extraction :=
  { metadata := {},
    timeblocks := [{ day := "Monday", start_time := "04:30", end_time := "10:00",
                     subject := "Early" }] }

/-- The block of `c5Data`. -/
def c5Block : TimeBlock :=
  { day := "Monday", start_time := "04:30", end_time := "10:00", subject := "Early" }

/-- Witness for C5 at a concrete early-start block. -/
theorem c5_school_hours_warning_kept_witness :
    (validateExtraction c5Data).isValid = true ∧
    (∃ ws, (validateExtraction c5Data).warnings = some ws ∧
       ({ block := c5Block.subject, message := "Time outside reasonable school hours" } :
         WarnEntry) ∈ ws) ∧
    (∃ r, processFile (Except.ok { data := some c5Data })
        (Except.ok { success := true }) "image/png" =
        Except.ok r ∧ r.success = true ∧
        r.validationWarnings = (validateExtraction c5Data).warnings) :=
  c5_school_hours_warning_kept c5Data c5Block (Except.ok { success := true })
    (by decide) (by decide) (by decide) (by decide)

/-- C10: every time block of an enriched (validated) result has
`duration_minutes` defined, integral and at least 1: a pre-supplied value is
already constrained by the schema, a back-filled value is
`end_minutes - start_minutes`, strictly positive because the
`end <= start` check passed. -/
theorem c10_enriched_duration_positive_integer (data E : Extraction) (eb : TimeBlock)
    (hv : (validateExtraction data).isValid = true)
    (hE : (validateExtraction data).enrichedData = some E)
    (hmem : eb ∈ E.timeblocks) :
    ∃ d : ℚ, eb.duration_minutes = some d ∧ d.den = 1 ∧ 1 ≤ d := by
  obtain ⟨hs, hh⟩ := validateExtraction_isValid_elim hv
  have hveq := validateExtraction_valid_eq hs hh
  rw [hveq] at hE
  have hEeq : E =
      { metadata := data.metadata, timeblocks := enrichTimeBlocks data.timeblocks } := by
    cases hE
    rfl
  rw [hEeq] at hmem
  simp only [enrichTimeBlocks] at hmem
  rw [List.mem_map] at hmem
  obtain ⟨b, hb, hbe⟩ := hmem
  obtain ⟨hps, hpe, hdur⟩ := validateTimetable_success_facts hs b hb
  have hle : optLe (minutesOf b.end_time) (minutesOf b.start_time) = false :=
    (hardErrors_nil_iff _).mp hh b hb
  obtain ⟨sv, hsv⟩ := minutesOf_of_pattern hps
  obtain ⟨ev, hev⟩ := minutesOf_of_pattern hpe
  have hlt : sv < ev := by
    rw [hev, hsv] at hle
    simp only [optLe, decide_eq_false_iff_not] at hle
    omega
  subst hbe
  rcases hfalsy : jsFalsy b.duration_minutes with _ | _
  · rcases hdm : b.duration_minutes with _ | q
    · rw [hdm] at hfalsy
      simp [jsFalsy] at hfalsy
    · obtain ⟨hden, hge⟩ := hdur q hdm
      refine ⟨q, ?_, hden, hge⟩
      unfold enrichBlock
      rw [hfalsy]
      simp [hdm]
  · refine ⟨((ev - sv : Int) : ℚ), ?_, ?_, ?_⟩
    · unfold enrichBlock
      rw [hfalsy, hsv, hev]
      simp
    · exact Rat.den_intCast (ev - sv)
    · have h1 : (1 : Int) ≤ ev - sv := by omega
      exact_mod_cast h1

/-- Data for the C10 witness: one block with no pre-supplied duration. -/
def c10Data : Extraction :=
  { metadata := {},
    timeblocks := [{ day := "Friday", start_time := "09:00", end_time := "09:45",
                     subject := "Science" }] }

/-- The enriched form of `c10Data`. -/
def c10Enriched : Extraction :=
  { metadata := {},
    timeblocks := [{ day := "Friday", start_time := "09:00", end_time := "09:45",
                     duration_minutes := some (45 : ℚ), subject := "Science" }] }

/-- Witness for C10 at a concrete block whose duration is back-filled. -/
theorem c10_enriched_duration_positive_integer_witness :
    ∃ d : ℚ,
      ({ day := "Friday", start_time := "09:00", end_time := "09:45",
         duration_minutes := some (45 : ℚ), subject := "Science" } :
        TimeBlock).duration_minutes = some d ∧ d.den = 1 ∧ 1 ≤ d :=
  c10_enriched_duration_positive_integer c10Data c10Enriched _
    (by decide) (by decide) (by decide)

/-- C3 as stated is false: a block that passes validation with a
pre-supplied `duration_minutes` of 45 minutes over a 09:00–10:00 range keeps
the 45 after enrichment, although `end_minutes - start_minutes` is 60. -/
theorem c3_counterexample :
    (validateExtraction
      { metadata := {},
        timeblocks := [{ day := "Monday", start_time := "09:00", end_time := "10:00",
                         duration_minutes := some (45 : ℚ), subject := "Maths" }] }).isValid
        = true ∧
    ((validateExtraction
      { metadata := {},
        timeblocks := [{ day := "Monday", start_time := "09:00", end_time := "10:00",
                         duration_minutes := some (45 : ℚ), subject := "Maths" }] }).enrichedData.map
        (fun E => E.timeblocks.map (fun blk => blk.duration_minutes)))
        = some [some (45 : ℚ)] ∧
    minutesOf "10:00" = some 600 ∧ minutesOf "09:00" = some 540 ∧
    (45 : ℚ) ≠ ((600 - 540 : Int) : ℚ) := by
  refine ⟨by decide, by decide, by decide, by decide, by decide⟩

/-- C3 amended: after enrichment of a validated timeblocks list, a block
with a falsy (absent) `duration_minutes` gets exactly
`end_minutes - start_minutes`, while a block with a pre-supplied duration
keeps it unchanged. -/
theorem c3_amended_backfill_only (data E : Extraction) (i : Nat) (b eb : TimeBlock)
    (hv : (validateExtraction data).isValid = true)
    (hE : (validateExtraction data).enrichedData = some E)
    (hb : data.timeblocks[i]? = some b)
    (heb : E.timeblocks[i]? = some eb) :
    (jsFalsy b.duration_minutes = true →
       ∃ s e : Int, minutesOf b.start_time = some s ∧ minutesOf b.end_time = some e ∧
         eb.duration_minutes = some ((e - s : Int) : ℚ)) ∧
    (jsFalsy b.duration_minutes = false → eb.duration_minutes = b.duration_minutes) := by
  obtain ⟨hs, hh⟩ := validateExtraction_isValid_elim hv
  have hveq := validateExtraction_valid_eq hs hh
  rw [hveq] at hE
  have hEeq : E =
      { metadata := data.metadata, timeblocks := enrichTimeBlocks data.timeblocks } := by
    cases hE
    rfl
  rw [hEeq] at heb
  simp only [enrichTimeBlocks] at heb
  rw [List.getElem?_map enrichBlock data.timeblocks i, hb] at heb
  have hebe : enrichBlock b = eb := by
    cases heb
    rfl
  have hmemb : b ∈ data.timeblocks := List.getElem?_mem hb
  obtain ⟨hps, hpe, _⟩ := validateTimetable_success_facts hs b hmemb
  obtain ⟨sv, hsv⟩ := minutesOf_of_pattern hps
  obtain ⟨ev, hev⟩ := minutesOf_of_pattern hpe
  subst hebe
  constructor
  · intro hf
    refine ⟨sv, ev, hsv, hev, ?_⟩
    unfold enrichBlock
    rw [hf, hsv, hev]
    simp
  · intro hf
    unfold enrichBlock
    rw [hf]
    simp

/-- The block of the C3 witness: no duration supplied. -/
def c3WitnessBlock : TimeBlock :=
  { day := "Tuesday", start_time := "13:00", end_time := "14:30", subject := "Art" }

/-- The enriched C3 witness block: duration back-filled to 90. -/
def c3WitnessEnrichedBlock : TimeBlock :=
  { day := "Tuesday", start_time := "13:00", end_time := "14:30",
    duration_minutes := some (90 : ℚ), subject := "Art" }

/-- Data for the C3 witness: one block missing its duration. -/
def c3WitnessData : Extraction :=
  { metadata := {},
    timeblocks := [{ day := "Tuesday", start_time := "13:00", end_time := "14:30",
                     subject := "Art" }] }

/-- Enriched form of `c3WitnessData`. -/
def c3WitnessEnriched : Extraction :=
  { metadata := {},
    timeblocks := [{ day := "Tuesday", start_time := "13:00", end_time := "14:30",
                     duration_minutes := some (90 : ℚ), subject := "Art" }] }

/-- Witness for the amended C3 at a concrete block with absent duration. -/
theorem c3_amended_backfill_only_witness :
    (jsFalsy c3WitnessBlock.duration_minutes = true →
       ∃ s e : Int, minutesOf c3WitnessBlock.start_time = some s ∧
         minutesOf c3WitnessBlock.end_time = some e ∧
         c3WitnessEnrichedBlock.duration_minutes = some ((e - s : Int) : ℚ)) ∧
    (jsFalsy c3WitnessBlock.duration_minutes = false →
       c3WitnessEnrichedBlock.duration_minutes = c3WitnessBlock.duration_minutes) :=
  c3_amended_backfill_only c3WitnessData c3WitnessEnriched 0 c3WitnessBlock
    c3WitnessEnrichedBlock (by decide) (by decide) (by decide) (by decide)

/-- A candidate extraction whose only block runs from 10:00 back to 09:00:
schema-valid, but a hard time-range error. -/
def c1BadData : Extraction :=
  { metadata := {},
    timeblocks := [{ day := "Monday", start_time := "10:00", end_time := "09:00",
                     subject := "Maths" }] }

/-- C1 is violated by the code: for an extraction whose candidate data fails
validation with a hard error, `processFile` RETURNS the failure object
instead of throwing, and the controller wraps any returned object as a
success — the HTTP response is status 200 with `success: true` and an
undefined `data` field, not the 422 `VALIDATION_FAILED` response the claim
(and the repository's own README) requires. -/
theorem c1_validation_failure_gets_http_200 :
    extractTimetable true (Except.ok { data := some c1BadData })
        (Except.ok { data := some c1BadData }) "image/png"
      = { status := 200, success := true, data := none, errorCode := none } := by
  decide

/-- A schema-valid one-block extraction used to exercise the gif route. -/
def c2GoodData : Extraction :=
  { metadata := {},
    timeblocks := [{ day := "Monday", start_time := "09:00", end_time := "10:00",
                     subject := "Maths" }] }

/-- C2 as stated is false of the router: `processFile` dispatches
`image/gif` to the Image Processor (the `image/` prefix matches) and, far
from failing with `UNSUPPORTED_FILE_TYPE`, completes successfully when the
image processor produces valid data — the PDF processor's outcome (an
error here) is untouched. -/
theorem c2_counterexample :
    routeFile "image/gif" = Except.ok Route.image ∧
    (∃ r, processFile (Except.ok { data := some c2GoodData })
        (Except.error { code := some "PDF_PROCESSING_FAILED", message := "unused" })
        "image/gif" = Except.ok r ∧ r.success = true) := by
  exact ⟨rfl, ⟨_, rfl, rfl⟩⟩

/-- C2 amended: with the default allowed-types configuration, the upload
middleware's file filter rejects MIME `image/gif` with
`UNSUPPORTED_FILE_TYPE` naming the allowed set, before `processFile` runs —
whatever either processor would have produced, so neither processor is ever
invoked on the request path. -/
theorem c2_amended_gif_rejected_by_upload_filter
    (imageResult pdfResult : Except ThrownErr ProcResult) :
    uploadThenProcess defaultAllowedFileTypes imageResult pdfResult "image/gif" =
      Except.error
        { code := some "UNSUPPORTED_FILE_TYPE",
          message := "File type image/gif is not supported. Allowed types: image/png, image/jpeg, application/pdf" } := by
  rfl

/-- Witness for the amended C2 at concrete processor outcomes. -/
theorem c2_amended_gif_rejected_by_upload_filter_witness :
    uploadThenProcess defaultAllowedFileTypes
        (Except.ok { data := some c2GoodData }) (Except.ok { success := true })
        "image/gif" =
      Except.error
        { code := some "UNSUPPORTED_FILE_TYPE",
          message := "File type image/gif is not supported. Allowed types: image/png, image/jpeg, application/pdf" } :=
  c2_amended_gif_rejected_by_upload_filter
    (Except.ok { data := some c2GoodData }) (Except.ok { success := true })

/-- C6: a PDF whose extracted text trims to at most 50 characters makes
`processPDF` throw `PDF_PROCESSING_FAILED` with the resubmit-as-image
message, and its call trace is empty: no LLM call, no OCR, no
rasterization fallback. -/
theorem c6_short_pdf_text_fails_without_llm (pdfText : String)
    (textLlm : Except String Extraction)
    (h : (jsTrim pdfText).length ≤ 50) :
    (∃ e, (processPDF pdfText textLlm).1 = Except.error e ∧
        e.code = some "PDF_PROCESSING_FAILED" ∧
        e.message = "PDF appears to be a scanned image. Please convert to PNG/JPEG and upload again, or the PDF may be empty.") ∧
      (processPDF pdfText textLlm).2 = [] := by
  have hcond : (pdfText != "" && decide (50 < (jsTrim pdfText).length)) = false := by
    have hnot : ¬(50 < (jsTrim pdfText).length) := by omega
    simp [hnot]
  unfold processPDF
  rw [hcond]
  exact ⟨⟨_, rfl, rfl, rfl⟩, rfl⟩

/-- Witness for C6 at a concrete nine-character PDF text. -/
theorem c6_short_pdf_text_fails_without_llm_witness :
    (∃ e, (processPDF "too short" (Except.error "llm unused")).1 = Except.error e ∧
        e.code = some "PDF_PROCESSING_FAILED" ∧
        e.message = "PDF appears to be a scanned image. Please convert to PNG/JPEG and upload again, or the PDF may be empty.") ∧
      (processPDF "too short" (Except.error "llm unused")).2 = [] :=
  c6_short_pdf_text_fails_without_llm "too short" (Except.error "llm unused") (by decide)

/-- C7: when vision is enabled and configured but the vision call throws,
and OCR is enabled, the image processor performs exactly one OCR attempt and
at most one text-LLM call (no retry loop); and whenever the OCR confidence is
below the threshold or the recognized text trims to under 50 characters, the
whole call fails with an `IMAGE_PROCESSING_FAILED` error and the text LLM is
never invoked. -/
theorem c7_single_ocr_fallback (cfg : Config) (raw : OcrRaw) (visionMsg : String)
    (textLlm : Except String Extraction)
    (hv : cfg.enableLLMVision = true) (hc : cfg.llmConfigured = true)
    (ho : cfg.enableOCR = true) :
    (processImage cfg (Except.error visionMsg) raw textLlm).2.count Action.ocr = 1 ∧
    (processImage cfg (Except.error visionMsg) raw textLlm).2.count Action.textLLM ≤ 1 ∧
    (((performOCR raw).confidence < cfg.ocrConfidenceThreshold ∨
        (jsTrim (performOCR raw).text).length < 50) →
      (∃ e, (processImage cfg (Except.error visionMsg) raw textLlm).1 = Except.error e ∧
          e.code = some "IMAGE_PROCESSING_FAILED") ∧
        Action.textLLM ∉ (processImage cfg (Except.error visionMsg) raw textLlm).2) := by
  have hPI : processImage cfg (Except.error visionMsg) raw textLlm =
      (wrapImageError (extractWithOCR cfg raw textLlm).1,
        Action.visionLLM :: (extractWithOCR cfg raw textLlm).2) := by
    simp [processImage, hv, hc, ho]
  rw [hPI]
  by_cases h1 : (performOCR raw).confidence < cfg.ocrConfidenceThreshold
  · have hE : extractWithOCR cfg raw textLlm =
        (Except.error "OCR confidence too low. Image quality may be insufficient. Try a clearer image.",
         [Action.ocr]) := by
      simp [extractWithOCR, h1]
    rw [hE]
    refine ⟨by decide, by decide, ?_⟩
    intro _
    exact ⟨⟨imageFailure _, rfl, rfl⟩, by decide⟩
  · by_cases h2 : (((performOCR raw).text == "") = true ∨
        (jsTrim (performOCR raw).text).length < 50)
    · have hE : extractWithOCR cfg raw textLlm =
          (Except.error "Insufficient text extracted from image. Image may be unclear or contain no timetable data.",
           [Action.ocr]) := by
        simp only [extractWithOCR]
        rw [if_neg h1, if_pos h2]
      rw [hE]
      refine ⟨by decide, by decide, ?_⟩
      intro _
      exact ⟨⟨imageFailure _, rfl, rfl⟩, by decide⟩
    · cases textLlm with
      | ok d =>
        have hE : extractWithOCR cfg raw (Except.ok d) =
            (Except.ok { data := some d, extractionMethod := "ocr + llm-text",
                         ocrConfidence := some (performOCR raw).confidence },
             [Action.ocr, Action.textLLM]) := by
          simp only [extractWithOCR]
          rw [if_neg h1, if_neg h2, if_pos hc]
        rw [hE]
        refine ⟨by rfl, by simp, ?_⟩
        intro hq
        exfalso
        rcases hq with hq | hq
        · exact h1 hq
        · exact h2 (Or.inr hq)
      | error m =>
        have hE : extractWithOCR cfg raw (Except.error m) =
            (Except.error m, [Action.ocr, Action.textLLM]) := by
          simp only [extractWithOCR]
          rw [if_neg h1, if_neg h2, if_pos hc]
        rw [hE]
        refine ⟨by rfl, by simp, ?_⟩
        intro hq
        exfalso
        rcases hq with hq | hq
        · exact h1 hq
        · exact h2 (Or.inr hq)

/-- Configuration for the C7 witness: everything enabled, threshold 0.6. -/
def c7Cfg : Config :=
  { enableLLMVision := true, enableOCR := true,
    ocrConfidenceThreshold := (3 : ℚ) / 5, llmConfigured := true }

/-- OCR outcome for the C7 witness: five characters of text. -/
def c7Raw : OcrRaw := { text := "abcde", confidence := (90 : ℚ) }

/-- Witness for C7 at a concrete failed vision call with short OCR text. -/
theorem c7_single_ocr_fallback_witness :
    ((jsTrim (performOCR c7Raw).text).length < 50) ∧
    ((processImage c7Cfg (Except.error "vision failed") c7Raw
        (Except.error "llm unused")).2.count Action.ocr = 1 ∧
      (processImage c7Cfg (Except.error "vision failed") c7Raw
        (Except.error "llm unused")).2.count Action.textLLM ≤ 1 ∧
      (((performOCR c7Raw).confidence < c7Cfg.ocrConfidenceThreshold ∨
          (jsTrim (performOCR c7Raw).text).length < 50) →
        (∃ e, (processImage c7Cfg (Except.error "vision failed") c7Raw
            (Except.error "llm unused")).1 = Except.error e ∧
            e.code = some "IMAGE_PROCESSING_FAILED") ∧
          Action.textLLM ∉ (processImage c7Cfg (Except.error "vision failed") c7Raw
            (Except.error "llm unused")).2)) :=
  ⟨by decide,
   c7_single_ocr_fallback c7Cfg c7Raw "vision failed" (Except.error "llm unused")
     rfl rfl rfl⟩

/-- A prose-wrapped model reply. -/
def c8ProseBody : String := "Here is the timetable: \x7b\"a\": 1\x7d"

/-- A reply with a valid leading JSON object but a stray closing brace. -/
def c8GreedyBody : String := "\x7b\"a\": 1\x7d trailing \x7d"

/-- C8 as stated is false: the two LLM clients do not share one parsing
strategy.  On a prose-wrapped body the OpenAI client's direct `JSON.parse`
throws while the Anthropic client's regex extraction succeeds; and the
Anthropic regex is greedy (first opening brace to LAST closing brace), so a
body whose FIRST brace-delimited object is valid JSON still fails when a
stray closing brace follows. -/
theorem c8_counterexample :
    openaiVisionParse c8ProseBody = Except.error "Unexpected token: JSON.parse failed" ∧
    anthropicVisionParse c8ProseBody = Except.ok (Json.obj [("a", Json.num 1)]) ∧
    anthropicVisionParse c8GreedyBody = Except.error "Unexpected token: JSON.parse failed" ∧
    jsonParse "\x7b\"a\": 1\x7d" = some (Json.obj [("a", Json.num 1)]) :=
  ⟨rfl, rfl, rfl, rfl⟩

/-- C8 amended: within each provider implementation the vision and text
paths parse responses identically (OpenAI: whole-body `JSON.parse`;
Anthropic: greedy first-to-last-brace extraction then `JSON.parse`), but the
two implementations differ from each other, as `c8_counterexample` shows. -/
theorem c8_amended_uniform_within_client (s : String) :
    openaiVisionParse s = openaiTextParse s ∧
      anthropicVisionParse s = anthropicTextParse s :=
  ⟨rfl, rfl⟩

/-- Witness for the amended C8 at a concrete response body. -/
theorem c8_amended_uniform_within_client_witness :
    openaiVisionParse c8ProseBody = openaiTextParse c8ProseBody ∧
      anthropicVisionParse c8ProseBody = anthropicTextParse c8ProseBody :=
  c8_amended_uniform_within_client c8ProseBody

end TimetableExtractor
